import Mathlib

/-!
Shallow embedding of the go-seele consensus core (transaction model,
merkle root entry point, mining task assembly, proof-of-work nonce
search), translated from the Go sources under core/types/transaction.go,
miner/task.go and miner/core.go, together with theorems settling the
specification claims.

Conventions of the embedding:
* `common.Address` and `common.Hash` are opaque identifiers; we model both
  as `Nat` (a hash value is identified with its big-endian unsigned
  integer reading, the reading `hashInt.SetBytes(hash.Bytes())` performs,
  which is injective on fixed-width hashes).
* `*big.Int` becomes `Option Int` (`none` = nil pointer); `uint64` fields
  become `Nat`, with arithmetic taken modulo `2^64` exactly where the Go
  code can overflow (the miner's nonce arithmetic).
* byte slices become `List Nat`.
* the external crypto package (`crypto.MustHash`, `Signature.Verify`) and
  the external collaborators (state database, transaction pool, chain
  view, reward policy, mining target) are parameters of the embedding:
  they live outside the four source files.
-/

namespace GoSeele

abbrev Address : Type := Nat

abbrev Hash : Type := Nat

/-- Go: `defaultMaxPayloadSize = 32 * 1024` (transaction.go). -/
def defaultMaxPayloadSize : Nat := 32 * 1024

/-- Go: `MaxPayloadSize = defaultMaxPayloadSize` (transaction.go). -/
def MaxPayloadSize : Nat := defaultMaxPayloadSize

/-- The validation error values of transaction.go, one constructor per
`errors.New` variable. -/
inductive TxError : Type
  | AmountNil
  | AmountNegative
  | BalanceNotEnough
  | NonceTooLow
  | PayloadOversized
  | SigMissing
  | HashMismatch
  | SigInvalid
  deriving DecidableEq, Repr

/-- `crypto.Signature` is opaque to this package; we keep its bytes. -/
structure Signature : Type where
  Sig : List Nat
  deriving DecidableEq, Repr

/-- Go: `TransactionData` (transaction.go). `To` is nil for contract
creation, `Amount` is a nil-able `*big.Int`. -/
structure TransactionData : Type where
  From : Address
  To : Option Address
  Amount : Option Int
  AccountNonce : Nat
  Timestamp : Nat
  Payload : List Nat
  deriving DecidableEq, Repr

/-- Go: `Transaction` (transaction.go). `Data` and `Signature` are
pointers, hence nil-able. -/
structure Transaction : Type where
  Hash : Hash
  Data : Option TransactionData
  Signature : Option Signature
  deriving DecidableEq, Repr

/-- The external crypto package, a parameter of the embedding:
`MustHash` hashes a `TransactionData`, `MustHashStr` hashes a string, and
`Verify` checks a signature against an address and hash bytes. -/
structure Crypto : Type where
  MustHash : TransactionData → Hash
  MustHashStr : String → Hash
  Verify : Signature → Address → Hash → Bool

/-- Go: the `stateDB` interface of transaction.go
(`GetBalance`, `GetNonce`). -/
structure StateDB : Type where
  GetBalance : Address → Int
  GetNonce : Address → Nat

/-- Go: `Transaction.Validate` (transaction.go lines 133-168), check for
check in source order.  `amount.Sign() < 0` is `a < 0`,
`Amount.Cmp(balance) > 0` is `balance < a`, and `txDataHash.Equal(tx.Hash)`
is hash equality. -/
def Transaction.Validate (c : Crypto) (tx : Transaction) (statedb : StateDB) :
    Option TxError :=
  match tx.Data with
  | none => some .AmountNil
  | some d =>
    match d.Amount with
    | none => some .AmountNil
    | some a =>
      if a < 0 then some .AmountNegative
      else if statedb.GetBalance d.From < a then some .BalanceNotEnough
      else if d.AccountNonce < statedb.GetNonce d.From then some .NonceTooLow
      else if MaxPayloadSize < d.Payload.length then some .PayloadOversized
      else
        match tx.Signature with
        | none => some .SigMissing
        | some sig =>
          let txDataHash := c.MustHash d
          if txDataHash ≠ tx.Hash then some .HashMismatch
          else if ¬ c.Verify sig d.From txDataHash then some .SigInvalid
          else none

/-- The eight checks of `Validate` as an ordered list of
(fail-condition, error) pairs, written directly from the source order of
transaction.go; `Validate` should return the error of the first pair whose
condition holds. -/
def validateChecks (c : Crypto) (tx : Transaction) (statedb : StateDB) :
    List (Bool × TxError) :=
  [ ((tx.Data.bind (fun d => d.Amount)).isNone, .AmountNil),
    ((tx.Data.bind (fun d => d.Amount)).elim false (fun a => decide (a < 0)),
      .AmountNegative),
    (tx.Data.elim false (fun d => d.Amount.elim false
      (fun a => decide (statedb.GetBalance d.From < a))), .BalanceNotEnough),
    (tx.Data.elim false
      (fun d => decide (d.AccountNonce < statedb.GetNonce d.From)),
      .NonceTooLow),
    (tx.Data.elim false
      (fun d => decide (MaxPayloadSize < d.Payload.length)),
      .PayloadOversized),
    (tx.Signature.isNone, .SigMissing),
    (tx.Data.elim false (fun d => decide (c.MustHash d ≠ tx.Hash)),
      .HashMismatch),
    (tx.Data.elim false (fun d => tx.Signature.elim false
      (fun sig => ! c.Verify sig d.From (c.MustHash d))), .SigInvalid) ]

theorem validate_eq_first_failing_check (c : Crypto) (tx : Transaction)
    (statedb : StateDB) :
    tx.Validate c statedb
      = ((validateChecks c tx statedb).find? (fun p => p.1)).map
          (fun p => p.2) := by
  rcases tx with ⟨hsh, d, s⟩
  cases d with
  | none => rfl
  | some d =>
    cases hA : d.Amount with
    | none => simp [Transaction.Validate, validateChecks, hA, List.find?]
    | some a =>
      by_cases h1 : a < 0
      · simp [Transaction.Validate, validateChecks, hA, List.find?, h1]
      · by_cases h2 : statedb.GetBalance d.From < a
        · simp [Transaction.Validate, validateChecks, hA, List.find?, h1, h2]
        · by_cases h3 : d.AccountNonce < statedb.GetNonce d.From
          · simp [Transaction.Validate, validateChecks, hA, List.find?,
              h1, h2, h3]
          · by_cases h4 : MaxPayloadSize < d.Payload.length
            · simp [Transaction.Validate, validateChecks, hA, List.find?,
                h1, h2, h3, h4]
            · cases s with
              | none =>
                simp [Transaction.Validate, validateChecks, hA, List.find?,
                  h1, h2, h3, h4]
              | some sig =>
                by_cases h5 : c.MustHash d = hsh
                · by_cases h6 : c.Verify sig d.From hsh
                  · simp [Transaction.Validate, validateChecks, hA,
                      List.find?, h1, h2, h3, h4, h5, h6]
                  · simp [Transaction.Validate, validateChecks, hA,
                      List.find?, h1, h2, h3, h4, h5, h6]
                · simp [Transaction.Validate, validateChecks, hA,
                    List.find?, h1, h2, h3, h4, h5]

/-- A concrete crypto instance used to evaluate the theorems on concrete
inputs: the hash of a `TransactionData` is its payload length, so
mutating the payload length changes the hash. -/
def cryptoSample : Crypto :=
  { MustHash := fun d => d.Payload.length
    MustHashStr := fun s => s.length
    Verify := fun _ _ _ => true }

/-- A concrete state view: every account has balance 5 and nonce 3. -/
def dbSample : StateDB :=
  { GetBalance := fun _ => 5
    GetNonce := fun _ => 3 }

/-- Sample transaction data: amount 10 exceeds the sample balance 5. -/
def dataRich : TransactionData :=
  { From := 1, To := some 2, Amount := some 10, AccountNonce := 3
    Timestamp := 0, Payload := [] }

/-- Sample transaction data: amount within balance, nonce 1 below the
sample state nonce 3. -/
def dataLowNonce : TransactionData :=
  { From := 1, To := some 2, Amount := some 4, AccountNonce := 1
    Timestamp := 0, Payload := [] }

/-- Sample transaction data: amount within balance, nonce 3 equal to the
sample state nonce. -/
def dataOkNonce : TransactionData :=
  { From := 1, To := some 2, Amount := some 4, AccountNonce := 3
    Timestamp := 0, Payload := [] }

/-- C1: `Transaction.Validate` runs its checks in the fixed source order
AmountNil, AmountNegative, BalanceInsufficient, NonceTooLow,
PayloadOversized, SignatureMissing, HashMismatch, SignatureInvalid and,
for every transaction and state view, returns the error of the first
check that fails (none when all pass); in particular amount > balance
yields BalanceInsufficient, accountNonce < stateNonce yields NonceTooLow,
and accountNonce ≥ stateNonce never yields NonceTooLow. -/
theorem C1_validate_check_order (c : Crypto) (tx : Transaction)
    (statedb : StateDB) :
    (tx.Validate c statedb
        = ((validateChecks c tx statedb).find? (fun p => p.1)).map
            (fun p => p.2))
    ∧ (∀ d a, tx.Data = some d → d.Amount = some a → 0 ≤ a →
        statedb.GetBalance d.From < a →
        tx.Validate c statedb = some .BalanceNotEnough)
    ∧ (∀ d a, tx.Data = some d → d.Amount = some a → 0 ≤ a →
        a ≤ statedb.GetBalance d.From →
        d.AccountNonce < statedb.GetNonce d.From →
        tx.Validate c statedb = some .NonceTooLow)
    ∧ (∀ d, tx.Data = some d → statedb.GetNonce d.From ≤ d.AccountNonce →
        tx.Validate c statedb ≠ some .NonceTooLow) := by
  refine ⟨validate_eq_first_failing_check c tx statedb, ?_, ?_, ?_⟩
  · intro d a hd ha h0 hbal
    simp only [Transaction.Validate, hd, ha]
    rw [if_neg (by omega), if_pos hbal]
  · intro d a hd ha h0 hbal hn
    simp only [Transaction.Validate, hd, ha]
    rw [if_neg (by omega), if_neg (by omega), if_pos hn]
  · intro d hd hn
    rcases hA : d.Amount with _ | a
    · simp [Transaction.Validate, hd, hA]
    · by_cases h1 : a < 0
      · simp [Transaction.Validate, hd, hA, h1]
      · by_cases h2 : statedb.GetBalance d.From < a
        · simp [Transaction.Validate, hd, hA, h1, h2]
        · have h3 : ¬ d.AccountNonce < statedb.GetNonce d.From := by omega
          by_cases h4 : MaxPayloadSize < d.Payload.length
          · simp [Transaction.Validate, hd, hA, h1, h2, h3, h4]
          · rcases hs : tx.Signature with _ | sig
            · simp [Transaction.Validate, hd, hA, h1, h2, h3, h4, hs]
            · by_cases h5 : c.MustHash d = tx.Hash
              · by_cases h6 : c.Verify sig d.From tx.Hash
                · simp [Transaction.Validate, hd, hA, h1, h2, h3, h4,
                    hs, h5, h6]
                · simp [Transaction.Validate, hd, hA, h1, h2, h3, h4,
                    hs, h5, h6]
              · simp [Transaction.Validate, hd, hA, h1, h2, h3, h4,
                  hs, h5]

/-- Witness for C1 at concrete inputs: a transaction whose amount 10
exceeds the balance 5 fails with BalanceNotEnough, one whose nonce 1 is
below the state nonce 3 fails with NonceTooLow, and one whose nonce
equals the state nonce does not fail with NonceTooLow. -/
theorem C1_validate_check_order_witness :
    (Transaction.Validate cryptoSample
        { Hash := 0, Data := some dataRich, Signature := none } dbSample
      = some .BalanceNotEnough)
    ∧ (Transaction.Validate cryptoSample
        { Hash := 0, Data := some dataLowNonce, Signature := none } dbSample
      = some .NonceTooLow)
    ∧ (Transaction.Validate cryptoSample
        { Hash := 0, Data := some dataOkNonce, Signature := none } dbSample
      ≠ some .NonceTooLow) := by
  refine ⟨?_, ?_, ?_⟩
  · exact (C1_validate_check_order cryptoSample
      { Hash := 0, Data := some dataRich, Signature := none } dbSample).2.1
      dataRich 10 rfl rfl (by decide) (by decide)
  · exact (C1_validate_check_order cryptoSample
      { Hash := 0, Data := some dataLowNonce, Signature := none }
      dbSample).2.2.1 dataLowNonce 4 rfl rfl (by decide) (by decide)
      (by decide)
  · exact (C1_validate_check_order cryptoSample
      { Hash := 0, Data := some dataOkNonce, Signature := none }
      dbSample).2.2.2 dataOkNonce rfl (by decide)

/-- The three ways Go's `newTx` can finish: a runtime panic (nil or
negative amount), an error return (`ErrPayloadOversized`), or a built
transaction. -/
inductive NewTxResult : Type
  | panicked : String → NewTxResult
  | err : TxError → NewTxResult
  | ok : Transaction → NewTxResult
  deriving DecidableEq, Repr

/-- Go: `newTx` (transaction.go lines 84-114).  `now` stands for
`uint64(time.Now().UnixNano())`.  The Go code clones a non-empty payload
and stores an empty slice for an empty one; with value semantics both
store the payload itself. -/
def newTx (c : Crypto) (now : Nat) (from_ : Address) (to_ : Option Address)
    (amount : Option Int) (nonce : Nat) (payload : List Nat) : NewTxResult :=
  match amount with
  | none => .panicked "Failed to create tx, amount is nil."
  | some a =>
    if a < 0 then .panicked "Failed to create tx, amount is negative."
    else if MaxPayloadSize < payload.length then .err .PayloadOversized
    else
      let txData : TransactionData :=
        { From := from_, To := to_, Amount := some a, AccountNonce := nonce
          Timestamp := now, Payload := payload }
      .ok { Hash := c.MustHash txData, Data := some txData
            Signature := none }

/-- Go: `NewTransaction` (transaction.go lines 79-82): calls `newTx` with
a nil payload and discards the error result. -/
def NewTransaction (c : Crypto) (now : Nat) (from_ to_ : Address)
    (amount : Option Int) (nonce : Nat) : NewTxResult :=
  newTx c now from_ (some to_) amount nonce []

/-- Go: `emptyTxRootHash = crypto.MustHash("empty transaction root hash")`
(transaction.go line 48). -/
def emptyTxRootHash (c : Crypto) : Hash :=
  c.MustHashStr "empty transaction root hash"

/-- Go: `MerkleRootHash` (transaction.go lines 185-198).  The merkle tree
construction (`merkle.NewTree` plus `MerkleRoot`) lives in an external
package, so it is a parameter `merkleRoot` applied to the transaction
list. -/
def MerkleRootHash (c : Crypto) (merkleRoot : List Transaction → Hash)
    (txs : List Transaction) : Hash :=
  if txs.length = 0 then emptyTxRootHash c
  else merkleRoot txs

/-- C9: `MerkleRootHash` on the empty transaction list returns the fixed
sentinel hash, the hash of the string "empty transaction root hash";
being a total function into `Hash` it never yields a null value, so the
transactions-root header field is always well-formed. -/
theorem C9_merkle_root_empty (c : Crypto)
    (merkleRoot : List Transaction → Hash) :
    MerkleRootHash c merkleRoot [] = c.MustHashStr "empty transaction root hash" := by
  rfl

/-- C7: a payload of length exactly `MaxPayloadSize` is accepted by both
`newTx` (a transaction is built) and `Validate` (the result is never
PayloadOversized), while a payload of length `MaxPayloadSize + 1` is
rejected with PayloadOversized in both places (in `Validate` once the
four earlier checks pass). -/
theorem C7_payload_boundary (c : Crypto) (statedb : StateDB) :
    (∀ now from_ to_ a nonce payload, 0 ≤ a →
      payload.length = MaxPayloadSize →
      ∃ tx, newTx c now from_ to_ (some a) nonce payload = .ok tx)
    ∧ (∀ now from_ to_ a nonce payload, 0 ≤ a →
        payload.length = MaxPayloadSize + 1 →
        newTx c now from_ to_ (some a) nonce payload = .err .PayloadOversized)
    ∧ (∀ (tx : Transaction) d, tx.Data = some d → d.Payload.length = MaxPayloadSize →
        tx.Validate c statedb ≠ some .PayloadOversized)
    ∧ (∀ (tx : Transaction) d a, tx.Data = some d → d.Amount = some a → 0 ≤ a →
        a ≤ statedb.GetBalance d.From →
        statedb.GetNonce d.From ≤ d.AccountNonce →
        d.Payload.length = MaxPayloadSize + 1 →
        tx.Validate c statedb = some .PayloadOversized) := by
  refine ⟨?_, ?_, ?_, ?_⟩
  · intro now from_ to_ a nonce payload h0 hlen
    refine ⟨⟨c.MustHash ⟨from_, to_, some a, nonce, now, payload⟩,
      some ⟨from_, to_, some a, nonce, now, payload⟩, none⟩, ?_⟩
    simp only [newTx]
    rw [if_neg (by omega), if_neg (by omega)]
  · intro now from_ to_ a nonce payload h0 hlen
    simp only [newTx]
    rw [if_neg (by omega), if_pos (by omega)]
  · intro tx d hd hlen
    rcases hA : d.Amount with _ | a
    · simp [Transaction.Validate, hd, hA]
    · by_cases h1 : a < 0
      · simp [Transaction.Validate, hd, hA, h1]
      · by_cases h2 : statedb.GetBalance d.From < a
        · simp [Transaction.Validate, hd, hA, h1, h2]
        · by_cases h3 : d.AccountNonce < statedb.GetNonce d.From
          · simp [Transaction.Validate, hd, hA, h1, h2, h3]
          · have h4 : ¬ MaxPayloadSize < d.Payload.length := by omega
            rcases hs : tx.Signature with _ | sig
            · simp [Transaction.Validate, hd, hA, h1, h2, h3, h4, hs]
            · by_cases h5 : c.MustHash d = tx.Hash
              · by_cases h6 : c.Verify sig d.From tx.Hash
                · simp [Transaction.Validate, hd, hA, h1, h2, h3, h4,
                    hs, h5, h6]
                · simp [Transaction.Validate, hd, hA, h1, h2, h3, h4,
                    hs, h5, h6]
              · simp [Transaction.Validate, hd, hA, h1, h2, h3, h4,
                  hs, h5]
  · intro tx d a hd hA h0 hbal hn hlen
    simp only [Transaction.Validate, hd, hA]
    rw [if_neg (by omega), if_neg (by omega), if_neg (by omega),
      if_pos (by omega)]

/-- Witness for C7 at concrete inputs: payloads of length exactly
`MaxPayloadSize` and `MaxPayloadSize + 1`, over the sample crypto and
state view. -/
theorem C7_payload_boundary_witness :
    (∃ tx, newTx cryptoSample 0 1 (some 2) (some 4) 3
        (List.replicate MaxPayloadSize 0) = .ok tx)
    ∧ (newTx cryptoSample 0 1 (some 2) (some 4) 3
        (List.replicate (MaxPayloadSize + 1) 0) = .err .PayloadOversized)
    ∧ (Transaction.Validate cryptoSample
        { Hash := 0, Data := some { dataOkNonce with
            Payload := List.replicate MaxPayloadSize 0 }
          Signature := none } dbSample ≠ some .PayloadOversized)
    ∧ (Transaction.Validate cryptoSample
        { Hash := 0, Data := some { dataOkNonce with
            Payload := List.replicate (MaxPayloadSize + 1) 0 }
          Signature := none } dbSample = some .PayloadOversized) := by
  refine ⟨?_, ?_, ?_, ?_⟩
  · exact (C7_payload_boundary cryptoSample dbSample).1 0 1 (some 2) 4 3
      (List.replicate MaxPayloadSize 0) (by decide) (by simp)
  · exact (C7_payload_boundary cryptoSample dbSample).2.1 0 1 (some 2) 4 3
      (List.replicate (MaxPayloadSize + 1) 0) (by decide) (by simp)
  · exact (C7_payload_boundary cryptoSample dbSample).2.2.1 _ _ rfl
      (by simp)
  · exact (C7_payload_boundary cryptoSample dbSample).2.2.2 _ _ 4 rfl rfl
      (by decide) (by decide) (by decide) (by simp)

/-- C10: `NewTransaction` discards the error of `newTx`, and this is safe
because it always passes a nil payload, so the only non-panic failure
(`ErrPayloadOversized`) is unreachable: for every non-nil, non-negative
amount it returns a built transaction whose `Hash` is the content hash of
its constructed `Data`, and for every amount it never returns an error
result. -/
theorem C10_new_transaction_total (c : Crypto) (now : Nat)
    (from_ to_ : Address) (nonce : Nat) :
    (∀ a : Int, 0 ≤ a →
      ∃ tx, NewTransaction c now from_ to_ (some a) nonce = .ok tx
        ∧ tx.Data ≠ none
        ∧ ∃ d, tx.Data = some d ∧ tx.Hash = c.MustHash d)
    ∧ (∀ amount e, NewTransaction c now from_ to_ amount nonce ≠ .err e) := by
  constructor
  · intro a h0
    refine ⟨⟨c.MustHash ⟨from_, some to_, some a, nonce, now, []⟩,
      some ⟨from_, some to_, some a, nonce, now, []⟩, none⟩,
      ?_, by simp, _, rfl, rfl⟩
    simp only [NewTransaction, newTx]
    rw [if_neg (by omega), if_neg (by decide)]
  · intro amount e
    rcases amount with _ | a
    · simp [NewTransaction, newTx]
    · simp only [NewTransaction, newTx]
      by_cases h1 : a < 0
      · simp [h1]
      · rw [if_neg h1, if_neg (by decide)]
        simp

/-- Witness for C10 at a concrete input: amount 4 yields a transaction,
and no amount yields an error result. -/
theorem C10_new_transaction_total_witness :
    (∃ tx, NewTransaction cryptoSample 0 1 2 (some 4) 3 = .ok tx
      ∧ tx.Data ≠ none
      ∧ ∃ d, tx.Data = some d ∧ tx.Hash = cryptoSample.MustHash d)
    ∧ NewTransaction cryptoSample 0 1 2 (some (-1)) 3 ≠ .err .PayloadOversized := by
  exact ⟨(C10_new_transaction_total cryptoSample 0 1 2 3).1 4 (by decide),
    (C10_new_transaction_total cryptoSample 0 1 2 3).2 (some (-1))
      .PayloadOversized⟩

/-- C8: for a signed transaction whose payload was mutated after the hash
was computed (stored hash = content hash of the original data `d`, the
stored data is `d` with a new payload, and the mutation changed the
content hash), `Validate` fails with HashMismatch — even when the stale
signature still verifies against the original hash bytes — because the
stored-hash check runs before the signature check. -/
theorem C8_mutated_payload_hash_mismatch (c : Crypto) (statedb : StateDB)
    (tx : Transaction) (d dMut : TransactionData) (p : List Nat)
    (sig : Signature)
    (horig : tx.Hash = c.MustHash d)
    (hmut : dMut = { d with Payload := p })
    (hdata : tx.Data = some dMut)
    (hsig : tx.Signature = some sig)
    (hchanged : c.MustHash dMut ≠ c.MustHash d)
    (hstale : c.Verify sig dMut.From (c.MustHash d) = true)
    (ha : ∃ a, dMut.Amount = some a ∧ 0 ≤ a
      ∧ a ≤ statedb.GetBalance dMut.From)
    (hnonce : statedb.GetNonce dMut.From ≤ dMut.AccountNonce)
    (hpay : dMut.Payload.length ≤ MaxPayloadSize) :
    tx.Validate c statedb = some .HashMismatch := by
  obtain ⟨a, hA, h0, hbal⟩ := ha
  simp only [Transaction.Validate, hdata, hA, hsig]
  rw [if_neg (by omega), if_neg (by omega), if_neg (by omega),
    if_neg (by omega), if_pos (by rw [horig]; simpa using hchanged)]

/-- Witness for C8: under the sample crypto (content hash = payload
length, signatures always verify) a transaction hashed over an empty
payload and then mutated to payload `[5]` fails validation with
HashMismatch. -/
theorem C8_mutated_payload_hash_mismatch_witness :
    Transaction.Validate cryptoSample
      { Hash := cryptoSample.MustHash dataOkNonce
        Data := some { dataOkNonce with Payload := [5] }
        Signature := some { Sig := [] } } dbSample
      = some .HashMismatch := by
  exact C8_mutated_payload_hash_mismatch cryptoSample dbSample _
    dataOkNonce { dataOkNonce with Payload := [5] } [5] { Sig := [] }
    rfl rfl rfl rfl (by decide) (by decide)
    ⟨4, rfl, by decide, by decide⟩ (by decide) (by decide)

/-- Modelled from the spec: `types.BlockHeader` is declared outside the
available sources; per the spec's data model it carries previous-hash,
difficulty, height, timestamp, nonce, state-root and transactions-root,
of which the proof-of-work search only writes `Nonce`. -/
structure BlockHeader : Type where
  PreviousBlockHash : Hash
  Difficulty : Int
  Height : Nat
  CreateTimestamp : Nat
  Nonce : Nat
  StateHash : Hash
  TxHash : Hash
  deriving DecidableEq, Repr

/-- Modelled from the spec: `types.Block` is declared outside the
available sources; per the spec it pairs a header (plus the stored
header-hash field) with the ordered transaction list. -/
structure Block : Type where
  HeaderHash : Hash
  Header : BlockHeader
  Transactions : List Transaction
  deriving DecidableEq, Repr

/-- The modulus `2^64` of Go's `uint64` nonce arithmetic. -/
def UINT64 : Nat := 2 ^ 64

/-- How one `StartMining` worker ends when neither the abort channel nor
the shared found-flag ever fires: `found b` models `result <- &Result{task,
block}` (a non-nil Result), `outage` models `result <- nil`, and
`running` means the given iteration budget was exhausted with the loop
still going. -/
inductive MineOutcome : Type
  | found : Block → MineOutcome
  | outage : MineOutcome
  | running : MineOutcome
  deriving DecidableEq, Repr

/-- Go: the `miner:` loop of `StartMining` (core.go lines 30-83), in the
run where the abort channel never fires and no other worker sets the
found flag (those two checks only cause an early exit without any
delivery, so every delivered result arises in the modelled run).  The
header hash function `hashFn` abstracts `block.Header.Hash()` together
with the reading `hashInt.SetBytes(hash.Bytes())`; `target` abstracts
`pow.GetMiningTarget(block.Header.Difficulty)`.  One fuel unit is one
loop iteration; the returned list records every nonce a hash was
computed for, in order.  `nonce++` and `seed-1` use uint64 arithmetic,
hence the `% UINT64`. -/
def mineAux (hashFn : BlockHeader → Hash) (target seed min max : Nat)
    (block : Block) : Nat → Nat → List Nat → MineOutcome × List Nat
  | 0, _, tried => (.running, tried)
  | fuel + 1, nonce, tried =>
    let header := { block.Header with Nonce := nonce }
    let hash := hashFn header
    if hash ≤ target then
      (.found { block with Header := header, HeaderHash := hash },
        tried ++ [nonce])
    else
      let nonce1 := if nonce = max then min else nonce
      if nonce1 = (seed + (UINT64 - 1)) % UINT64 then
        (.outage, tried ++ [nonce])
      else
        mineAux hashFn target seed min max block fuel
          ((nonce1 + 1) % UINT64) (tried ++ [nonce])

/-- Go: `StartMining` (core.go line 23): the nonce starts at `seed`. -/
def StartMining (hashFn : BlockHeader → Hash) (target seed min max : Nat)
    (block : Block) (fuel : Nat) : MineOutcome × List Nat :=
  mineAux hashFn target seed min max block fuel seed []

theorem mineAux_found_spec (hashFn : BlockHeader → Hash)
    (target seed min max : Nat) (block : Block) :
    ∀ (fuel nonce : Nat) (tried : List Nat) (b : Block) (l : List Nat),
      mineAux hashFn target seed min max block fuel nonce tried
          = (.found b, l) →
      hashFn b.Header ≤ target ∧ b.HeaderHash = hashFn b.Header := by
  intro fuel
  induction fuel with
  | zero => intro nonce tried b l h; simp [mineAux] at h
  | succ n ih =>
    intro nonce tried b l h
    rw [mineAux] at h
    by_cases hle : hashFn { block.Header with Nonce := nonce } ≤ target
    · rw [if_pos hle] at h
      simp only [Prod.mk.injEq, MineOutcome.found.injEq] at h
      obtain ⟨hb, -⟩ := h
      subst hb
      exact ⟨hle, rfl⟩
    · rw [if_neg hle] at h
      by_cases hout : (if nonce = max then min else nonce)
          = (seed + (UINT64 - 1)) % UINT64
      · rw [if_pos hout] at h
        simp at h
      · rw [if_neg hout] at h
        exact ih _ _ _ _ h

/-- A concrete block used to evaluate the mining theorems. -/
def blockSample : Block :=
  { HeaderHash := 0
    Header :=
      { PreviousBlockHash := 0, Difficulty := 1, Height := 10
        CreateTimestamp := 0, Nonce := 0, StateHash := 0, TxHash := 0 }
    Transactions := [] }

/-- C2: whenever the `StartMining` loop delivers a non-nil Result, the
delivered block's header hash, read as an unsigned big integer, is at
most the target, and recomputing the header hash from the returned
header (with its stored nonce) reproduces the stored `HeaderHash` field
exactly. -/
theorem C2_found_result_meets_target (hashFn : BlockHeader → Hash)
    (target seed min max fuel : Nat) (block b : Block) (tried : List Nat)
    (h : StartMining hashFn target seed min max block fuel
      = (.found b, tried)) :
    hashFn b.Header ≤ target ∧ b.HeaderHash = hashFn b.Header :=
  mineAux_found_spec hashFn target seed min max block fuel seed [] b tried h

/-- Witness for C2: with header hash = nonce and target 0 the worker
finds nonce 0 at once and delivers `blockSample` itself. -/
theorem C2_found_result_meets_target_witness :
    (fun hd : BlockHeader => hd.Nonce) blockSample.Header ≤ 0
      ∧ blockSample.HeaderHash
        = (fun hd : BlockHeader => hd.Nonce) blockSample.Header :=
  C2_found_result_meets_target (fun hd => hd.Nonce) 0 0 0 5 1
    blockSample blockSample [0] (by rfl)

/-- C3 is violated by the code: with seed=1, min=0, max=2 and an
unreachable target, the worker reports exhaustion (`result <- nil`)
having hashed only nonces 1 and 2 — the nonce min=0 of the assigned
range [0,2] is never tried, because after wrapping `nonce = min` the
loop increments before the next hash.  (The code's own comment claims
the nonce then "traverses in [min, seed-1]".) -/
theorem C3_outage_skips_min :
    (StartMining (fun _ => 1) 0 1 0 2 blockSample 3).1 = .outage
      ∧ (StartMining (fun _ => 1) 0 1 0 2 blockSample 3).2 = [1, 2]
      ∧ 0 ∉ (StartMining (fun _ => 1) 0 1 0 2 blockSample 3).2 := by
  refine ⟨by rfl, by rfl, by decide⟩

/-- C4 is violated by the code: for seed = min = 0, max = 1 and an
unreachable target (header hash constantly 1, target 0), the worker
never terminates: with the abort channel silent and the found flag
clear, every iteration budget is exhausted with the loop still running
(after the first wrap it retries nonce 1 forever, and the outage
sentinel `seed - 1 = 2^64 - 1` is never reached). -/
theorem C4_seed_eq_min_spins_forever :
    ∀ fuel : Nat,
      (StartMining (fun _ => 1) 0 0 0 1 blockSample fuel).1 = .running := by
  have step : ∀ (n : Nat) (tried : List Nat),
      mineAux (fun _ => 1) 0 0 0 1 blockSample (n + 1) 1 tried
        = mineAux (fun _ => 1) 0 0 0 1 blockSample n 1 (tried ++ [1]) :=
    fun n tried => rfl
  have key : ∀ (n : Nat) (tried : List Nat),
      (mineAux (fun _ => 1) 0 0 0 1 blockSample n 1 tried).1 = .running := by
    intro n
    induction n with
    | zero => intro tried; rfl
    | succ m ih => intro tried; rw [step]; exact ih _
  intro fuel
  cases fuel with
  | zero => rfl
  | succ n =>
    have entry : StartMining (fun _ => 1) 0 0 0 1 blockSample (n + 1)
        = mineAux (fun _ => 1) 0 0 0 1 blockSample n 1 [0] := rfl
    rw [entry]
    exact key n [0]

/-- Go: `Task` (task.go lines 21-26). -/
structure Task : Type where
  header : BlockHeader
  txs : List Transaction
  createdAt : Nat

/-- Modelled from the spec: the state view's getOrCreate/addAmount pair
(`statedb.GetOrNewStateObject(addr)` followed by `AddAmount(amount)`);
`state.Statedb` is outside the available sources.  Creating a missing
account with zero balance is absorbed by the total `GetBalance`
function; the credit adds `amount` to the address's balance. -/
def StateDB.AddAmount (s : StateDB) (addr : Address) (amount : Int) :
    StateDB :=
  { s with GetBalance := fun a =>
      if a = addr then s.GetBalance a + amount else s.GetBalance a }

/-- Modelled from the spec: the pending-transaction source's
`removeTransaction(hash)` (`seele.TxPool().RemoveTransaction`); the pool
implementation is outside the available sources.  Removal drops every
pending transaction carrying the given hash. -/
def RemoveTransaction (pool : List Transaction) (h : Hash) :
    List Transaction :=
  pool.filter (fun tx => tx.Hash != h)

/-- Modelled from the spec: the collaborators `applyTransactions`
consumes — the backend's coinbase, the chain view's
`ApplyTransaction(tx, coinbase, statedb, header)` (returning the mutated
state view and header), the state view's `Commit` producing a state
root, and the reward policy `pow.GetReward(height)`; all are declared
outside the available sources. -/
structure SeeleBackend : Type where
  GetCoinbase : Address
  ApplyTransaction :
    Transaction → Address → StateDB → BlockHeader → StateDB × BlockHeader
  Commit : StateDB → Hash
  GetReward : Nat → Int

/-- The mutable state threaded through the per-transaction loop of
`applyTransactions`: the task being assembled, the account-state view
and the pending pool. -/
structure ApplyState : Type where
  task : Task
  statedb : StateDB
  pool : List Transaction

/-- Go: the body of the `for _, tx := range txs` loop of
`applyTransactions` (task.go lines 39-51): the candidate is removed from
the pool first, then validated; on failure the loop only logs and
continues, on success the chain view applies the transaction and it is
appended to the task. -/
def applyTxStep (c : Crypto) (backend : SeeleBackend) (acc : ApplyState)
    (tx : Transaction) : ApplyState :=
  let pool := RemoveTransaction acc.pool tx.Hash
  match tx.Validate c acc.statedb with
  | some _ => { acc with pool := pool }
  | none =>
    let res := backend.ApplyTransaction tx backend.GetCoinbase acc.statedb
      acc.task.header
    { task := { acc.task with header := res.2, txs := acc.task.txs ++ [tx] }
      statedb := res.1
      pool := pool }

/-- Go: `Task.applyTransactions` (task.go lines 29-59), with the pending
pool made an explicit value.  `none` models the panic
`types.NewTransaction` raises on a nil or negative reward (the `_`
branches); otherwise the result pairs the final loop state (after
committing the state root into the header) with the error value the Go
function returns — which is always nil. -/
def Task.applyTransactions (c : Crypto) (now : Nat)
    (backend : SeeleBackend) (task : Task) (statedb : StateDB)
    (blockHeight : Nat) (txs : List Transaction)
    (pool : List Transaction) : Option (ApplyState × Option TxError) :=
  let rewardValue := backend.GetReward blockHeight
  match NewTransaction c now 0 backend.GetCoinbase (some rewardValue) 0 with
  | .ok reward0 =>
    let reward := { reward0 with Signature := some { Sig := [] } }
    let statedb1 := statedb.AddAmount backend.GetCoinbase rewardValue
    let task1 := { task with txs := task.txs ++ [reward] }
    let acc := txs.foldl (applyTxStep c backend)
      { task := task1, statedb := statedb1, pool := pool }
    let root := backend.Commit acc.statedb
    some ({ acc with task := { acc.task with
      header := { acc.task.header with StateHash := root } } }, none)
  | _ => none

/-- The reward transaction `applyTransactions` builds: sender = zero
address, receiver = coinbase, amount = reward(height), nonce = 0,
timestamp = now, empty payload, placeholder signature. -/
def rewardTxOf (c : Crypto) (now : Nat) (backend : SeeleBackend)
    (blockHeight : Nat) : Transaction :=
  { Hash := c.MustHash
      { From := 0, To := some backend.GetCoinbase
        Amount := some (backend.GetReward blockHeight), AccountNonce := 0
        Timestamp := now, Payload := [] }
    Data := some
      { From := 0, To := some backend.GetCoinbase
        Amount := some (backend.GetReward blockHeight), AccountNonce := 0
        Timestamp := now, Payload := [] }
    Signature := some { Sig := [] } }

theorem applyTxStep_foldl_txs_extends (c : Crypto) (backend : SeeleBackend) :
    ∀ (l : List Transaction) (acc : ApplyState),
      ∃ suffix, ((l.foldl (applyTxStep c backend) acc).task.txs)
        = acc.task.txs ++ suffix := by
  intro l
  induction l with
  | nil => intro acc; exact ⟨[], by simp⟩
  | cons t ts ih =>
    intro acc
    obtain ⟨s1, hs1⟩ := ih (applyTxStep c backend acc t)
    cases hv : t.Validate c acc.statedb with
    | some e =>
      refine ⟨s1, ?_⟩
      rw [List.foldl_cons, hs1]
      simp [applyTxStep, hv]
    | none =>
      refine ⟨t :: s1, ?_⟩
      rw [List.foldl_cons, hs1]
      simp [applyTxStep, hv]

theorem applyTxStep_foldl_txs_head (c : Crypto) (backend : SeeleBackend)
    (l : List Transaction) (acc : ApplyState) (t0 : Transaction)
    (rest : List Transaction) (h : acc.task.txs = t0 :: rest) :
    ((l.foldl (applyTxStep c backend) acc).task.txs).head? = some t0 := by
  obtain ⟨s, hs⟩ := applyTxStep_foldl_txs_extends c backend l acc
  rw [hs, h]
  simp

/-- C5: starting from a task with an empty transaction list,
`applyTransactions` builds the reward transaction (sender = zero
address, receiver = coinbase, amount = reward(height), nonce = 0,
placeholder signature — the fields of `rewardTxOf`), places it first in
the task's transaction list for every candidate list, and credits the
coinbase in the state view by exactly the reward; with zero pending
transactions the task's list is exactly `[rewardTx]` and the coinbase
balance increases by exactly the reward. -/
theorem C5_reward_first_and_credited (c : Crypto) (now : Nat)
    (backend : SeeleBackend) (task : Task) (statedb : StateDB)
    (blockHeight : Nat)
    (h0 : task.txs = [])
    (hr : 0 ≤ backend.GetReward blockHeight) :
    (∀ txs pool, ∃ res,
      Task.applyTransactions c now backend task statedb blockHeight txs pool
          = some res
        ∧ res.1.task.txs.head? = some (rewardTxOf c now backend blockHeight))
    ∧ (∀ pool, ∃ res,
      Task.applyTransactions c now backend task statedb blockHeight [] pool
          = some res
        ∧ res.1.task.txs = [rewardTxOf c now backend blockHeight]
        ∧ res.1.statedb.GetBalance backend.GetCoinbase
            = statedb.GetBalance backend.GetCoinbase
              + backend.GetReward blockHeight) := by
  have hnew : NewTransaction c now 0 backend.GetCoinbase
      (some (backend.GetReward blockHeight)) 0
      = .ok ⟨c.MustHash ⟨0, some backend.GetCoinbase,
            some (backend.GetReward blockHeight), 0, now, []⟩,
          some ⟨0, some backend.GetCoinbase,
            some (backend.GetReward blockHeight), 0, now, []⟩,
          none⟩ := by
    simp only [NewTransaction, newTx]
    rw [if_neg (by omega), if_neg (by decide)]
  constructor
  · intro txs pool
    simp only [Task.applyTransactions, hnew]
    refine ⟨_, rfl, ?_⟩
    exact applyTxStep_foldl_txs_head c backend txs _
      (rewardTxOf c now backend blockHeight) []
      (by simp [h0, rewardTxOf])
  · intro pool
    simp only [Task.applyTransactions, hnew]
    refine ⟨_, rfl, ?_, ?_⟩
    · simp [List.foldl_nil, h0, rewardTxOf]
    · simp [List.foldl_nil, StateDB.AddAmount]

/-- A concrete backend used to evaluate the task-assembly theorems:
coinbase 7, a chain view that applies no state change, commit returning
root 0, and constant reward 3. -/
def backendSample : SeeleBackend :=
  { GetCoinbase := 7
    ApplyTransaction := fun _ _ s h => (s, h)
    Commit := fun _ => 0
    GetReward := fun _ => 3 }

/-- A concrete fresh task (empty transaction list). -/
def taskSample : Task :=
  { header := blockSample.Header, txs := [], createdAt := 0 }

/-- Witness for C5: over the sample collaborators, with zero pending
transactions the assembled task holds exactly the reward transaction and
the coinbase balance grows from 5 to 5 + 3. -/
theorem C5_reward_first_and_credited_witness :
    ∃ res, Task.applyTransactions cryptoSample 0 backendSample taskSample
        dbSample 10 [] [] = some res
      ∧ res.1.task.txs = [rewardTxOf cryptoSample 0 backendSample 10]
      ∧ res.1.statedb.GetBalance backendSample.GetCoinbase
          = dbSample.GetBalance backendSample.GetCoinbase
            + backendSample.GetReward 10 :=
  (C5_reward_first_and_credited cryptoSample 0 backendSample taskSample
    dbSample 10 (by rfl) (by decide)).2 []

/-- C6: in `applyTransactions` every candidate is removed from the
pending source regardless of (and before) validation; a candidate that
fails `Validate` leaves the loop state unchanged apart from that pool
removal — it is never appended to the task, never applied to the state
and never re-queued, so later candidates are processed exactly as if it
had not been there; and whenever `applyTransactions` returns, the
returned error value is nil. -/
theorem C6_failed_tx_excluded (c : Crypto) (backend : SeeleBackend) :
    (∀ acc tx, (applyTxStep c backend acc tx).pool
        = RemoveTransaction acc.pool tx.Hash)
    ∧ (∀ acc tx e, tx.Validate c acc.statedb = some e →
        applyTxStep c backend acc tx
          = { acc with pool := RemoveTransaction acc.pool tx.Hash })
    ∧ (∀ now task statedb blockHeight txs pool res,
        Task.applyTransactions c now backend task statedb blockHeight txs
            pool = some res →
        res.2 = none) := by
  refine ⟨?_, ?_, ?_⟩
  · intro acc tx
    cases hv : tx.Validate c acc.statedb with
    | some e => simp [applyTxStep, hv]
    | none => simp [applyTxStep, hv]
  · intro acc tx e hv
    simp [applyTxStep, hv]
  · intro now task statedb blockHeight txs pool res h
    simp only [Task.applyTransactions] at h
    cases hN : NewTransaction c now 0 backend.GetCoinbase
        (some (backend.GetReward blockHeight)) 0 with
    | ok r =>
      rw [hN] at h
      obtain rfl := (Option.some.injEq _ _).mp h
      rfl
    | panicked s => rw [hN] at h; simp at h
    | err e => rw [hN] at h; simp at h

/-- A transaction without a signature, over valid amount and nonce: it
fails `Validate` with SigMissing. -/
def txNoSig : Transaction :=
  { Hash := 0, Data := some dataOkNonce, Signature := none }

/-- A concrete loop state holding `txNoSig` in the pool. -/
def accSample : ApplyState :=
  { task := taskSample, statedb := dbSample, pool := [txNoSig] }

/-- Witness for C6 at concrete inputs: the signature-less candidate is
removed from the pool, the step changes nothing else, and a concrete
`applyTransactions` run returns a nil error. -/
theorem C6_failed_tx_excluded_witness :
    ((applyTxStep cryptoSample backendSample accSample txNoSig).pool
        = RemoveTransaction accSample.pool txNoSig.Hash)
    ∧ (applyTxStep cryptoSample backendSample accSample txNoSig
        = { accSample with
            pool := RemoveTransaction accSample.pool txNoSig.Hash })
    ∧ (∃ res, Task.applyTransactions cryptoSample 0 backendSample
          taskSample dbSample 10 [txNoSig] [txNoSig] = some res
        ∧ res.2 = none) := by
  refine ⟨(C6_failed_tx_excluded cryptoSample backendSample).1 accSample
      txNoSig,
    (C6_failed_tx_excluded cryptoSample backendSample).2.1 accSample
      txNoSig .SigMissing (by rfl),
    ⟨_, rfl, (C6_failed_tx_excluded cryptoSample backendSample).2.2 0
      taskSample dbSample 10 [txNoSig] [txNoSig] _ rfl⟩⟩

end GoSeele
